import Mathlib

/-!
Verification of the MOVERY vulnerability-detection pipeline
(`Preprocessing.py` and `Detector.py`) against its natural-language
specification.

The Python sources are shallowly embedded: pure text transformations
become Lean functions over `List Char` / `String`, the per-candidate
decision procedure of `Detector.detector` becomes a function from a
signature record and the target function's normalized/abstracted line
sets to the list of emitted match reports, and the caught runtime
exceptions of the similarity phase (`TypeError` on a missing oldest
body, `ZeroDivisionError` on an empty oldest body) become an explicit
error component.  Machine floats appear only in the comparison
`float(len(a&b)/len(a)) >= 0.5`, which is modelled exactly by
`2 * |a ∩ b| >= |a|`.  Python's `str.lower` is modelled on ASCII
letters, the only case normalization relevant to the C/C++ line sets
the program compares.
-/

namespace Movery

/-! ### Character helpers (ASCII model of `str.lower`, whitespace classes) -/

/-- Table of ASCII uppercase letters and their lowercase forms. -/
def upperLowerTable : List (Char × Char) :=
  [('A','a'), ('B','b'), ('C','c'), ('D','d'), ('E','e'), ('F','f'), ('G','g'),
   ('H','h'), ('I','i'), ('J','j'), ('K','k'), ('L','l'), ('M','m'), ('N','n'),
   ('O','o'), ('P','p'), ('Q','q'), ('R','r'), ('S','s'), ('T','t'), ('U','u'),
   ('V','v'), ('W','w'), ('X','x'), ('Y','y'), ('Z','z')]

/-- ASCII model of Python's per-character `str.lower`. -/
def lowerChar (c : Char) : Char :=
  ((upperLowerTable.find? (fun p => p.1 = c)).map (fun p => p.2)).getD c

/-- Characters removed by `normalize` in the sources: carriage return,
tab (both via `str.replace`) and space (via `split(' ')`/`join`). -/
def wsChar (c : Char) : Bool :=
  c = '\r' || c = '\t' || c = ' '

theorem lowerChar_of_find?_none {c : Char}
    (h : upperLowerTable.find? (fun p => p.1 = c) = none) : lowerChar c = c := by
  simp [lowerChar, h]

theorem lowerChar_of_find?_some {c : Char} {p : Char × Char}
    (h : upperLowerTable.find? (fun p => p.1 = c) = some p) : lowerChar c = p.2 := by
  simp [lowerChar, h]

theorem lowerChar_snd_fixed {p : Char × Char} (hp : p ∈ upperLowerTable) :
    lowerChar p.2 = p.2 := by
  fin_cases hp <;> rfl

theorem lowerChar_idem (c : Char) : lowerChar (lowerChar c) = lowerChar c := by
  cases h : upperLowerTable.find? (fun p => p.1 = c) with
  | none => rw [lowerChar_of_find?_none h, lowerChar_of_find?_none h]
  | some p =>
    rw [lowerChar_of_find?_some h]
    exact lowerChar_snd_fixed (List.mem_of_find?_eq_some h)

theorem wsChar_lowerChar (c : Char) : wsChar (lowerChar c) = wsChar c := by
  cases h : upperLowerTable.find? (fun p => p.1 = c) with
  | none => rw [lowerChar_of_find?_none h]
  | some p =>
    rw [lowerChar_of_find?_some h]
    have hc := List.find?_some h
    have hmem := List.mem_of_find?_eq_some h
    have hc' : p.1 = c := by simpa using hc
    subst hc'
    fin_cases hmem <;> rfl

/-! ### `normalize` (Detector.py lines 57-65, Preprocessing.py lines 80-91)

`''.join(string.replace('\r', '').replace('\t', '').split(' ')).lower()`:
drop every `'\r'`, then every `'\t'`, then every `' '`, then lowercase. -/

/-- List-level embedding of `normalize`. -/
def normalizeL (l : List Char) : List Char :=
  ((((l.filter (fun c => !(c = '\r' : Bool))).filter
      (fun c => !(c = '\t' : Bool))).filter
      (fun c => !(c = ' ' : Bool))).map lowerChar)

/-- String-level `normalize`, as used throughout both scripts. -/
def normalize (s : String) : String := String.mk (normalizeL s.data)

theorem normalizeL_eq (l : List Char) :
    normalizeL l = (l.filter (fun c => !(wsChar c))).map lowerChar := by
  unfold normalizeL
  congr 1
  rw [List.filter_filter, List.filter_filter]
  exact List.filter_congr (fun c _ => by
    by_cases h1 : c = '\r' <;> by_cases h2 : c = '\t' <;> by_cases h3 : c = ' ' <;>
      simp [h1, h2, h3, wsChar])

theorem normalizeL_idem (l : List Char) : normalizeL (normalizeL l) = normalizeL l := by
  rw [normalizeL_eq, normalizeL_eq]
  induction l with
  | nil => rfl
  | cons c t ih =>
    by_cases h : wsChar c = true
    · simp [normalizeL_eq, List.filter_cons, h, ih]
    · have h' : wsChar c = false := by simpa using h
      simp [normalizeL_eq, List.filter_cons, h', wsChar_lowerChar, lowerChar_idem, ih]

/-- Relation expressing that two character lists differ only in letter
case and in whitespace characters (`'\r'`, `'\t'`, `' '`): matching
non-whitespace characters agree after lowercasing, and whitespace may
be inserted or dropped freely on either side. -/
inductive CaseWSVariant : List Char → List Char → Prop
  | nil : CaseWSVariant [] []
  | cons (c d : Char) {s t : List Char} :
      wsChar c = false → wsChar d = false → lowerChar c = lowerChar d →
      CaseWSVariant s t → CaseWSVariant (c :: s) (d :: t)
  | wsL (c : Char) {s t : List Char} :
      wsChar c = true → CaseWSVariant s t → CaseWSVariant (c :: s) t
  | wsR (d : Char) {s t : List Char} :
      wsChar d = true → CaseWSVariant s t → CaseWSVariant s (d :: t)

theorem normalizeL_of_caseWSVariant {l1 l2 : List Char}
    (h : CaseWSVariant l1 l2) : normalizeL l1 = normalizeL l2 := by
  rw [normalizeL_eq, normalizeL_eq]
  induction h with
  | nil => rfl
  | cons c d hc hd hl _ ih => simp [List.filter_cons, hc, hd, hl, ih]
  | wsL c hc _ ih => simp [List.filter_cons, hc, ih]
  | wsR d hd _ ih => simp [List.filter_cons, hd, ih]

/-- C7: `normalize` is a total function on strings (it is a plain Lean
function, with no failure modes); it removes carriage returns, tabs and
spaces and lower-cases the remainder; it is idempotent; and two lines
that differ only in case or whitespace normalize to the same string. -/
theorem C7_normalize_idempotent :
    (∀ s : String, normalize (normalize s) = normalize s)
    ∧ (∀ l1 l2 : List Char, CaseWSVariant l1 l2 →
        normalize (String.mk l1) = normalize (String.mk l2)) := by
  constructor
  · intro s
    simp [normalize, normalizeL_idem]
  · intro l1 l2 h
    simp [normalize, normalizeL_of_caseWSVariant h]

/-- C7 witness: idempotence and case/whitespace invariance at concrete
inputs: `"A b"` and `"ab"` normalize identically. -/
theorem C7_witness :
    normalize (normalize "A B\tc") = normalize "A B\tc"
    ∧ normalize "A b" = normalize "ab" :=
  ⟨C7_normalize_idempotent.1 "A B\tc",
   C7_normalize_idempotent.2 "A b".data "ab".data
     (.cons 'A' 'a' (by decide) (by decide) (by decide)
       (.wsL ' ' (by decide)
         (.cons 'b' 'b' (by decide) (by decide) (by decide) .nil)))⟩

/-! ### `removeComment` (Detector.py lines 67-78, Preprocessing.py lines 242-254)

The Python regex (flags `DOTALL | MULTILINE`)

  `(?P<comment>//.*?$|[{}]+)|(?P<multilinecomment>/\*.*?\*/)|`
  `(?P<noncomment>\x27(\\.|[^\\\x27])*\x27|"(\\.|[^\\"])*"|.[^/\x27"]*)`

is scanned with `finditer` and only the `noncomment` groups are kept.
At each position exactly one alternative matches, tried in order, so
the whole scan is the deterministic recursion below: a `//` comment is
dropped up to (excluding) the next newline; a maximal run of braces is
dropped when a match starts on a brace; a terminated `/* */` block
comment is dropped (lazily, up to the first `*/`); a well-formed
character or string literal is kept verbatim (backslash escapes
consume the following character); and otherwise one character plus the
following run of characters other than `/`, quote and double quote is
kept as plain text.  An unterminated block comment or literal falls
into the plain-text branch and is kept, never over-consumed.  The
recursion is fuelled by the input length; every step consumes at least
one character, so the fuel never runs out on the initial call. -/

/-- Single-quote character (code point 39). -/
def squote : Char := Char.ofNat 39

/-- Opening-brace character (code point 123). -/
def lbrace : Char := Char.ofNat 123

/-- Closing-brace character (code point 125). -/
def rbrace : Char := Char.ofNat 125

/-- Brace test, the `[{}]+` character class. -/
def isBraceC (c : Char) : Bool := c = lbrace || c = rbrace

/-- Characters allowed to extend a plain-text match, the `[^/\x27"]` class. -/
def notDelim (c : Char) : Bool := !(c = '/' || c = squote || c = '"')

/-- Scan a quoted literal body after its opening quote `q`: the regex
`q(\\.|[^\\q])*q`.  Returns the consumed characters (closing quote
included) and the remainder, or `none` if the literal never closes. -/
def scanLit (q : Char) : List Char → Option (List Char × List Char)
  | [] => none
  | c :: rest =>
    if c = q then some ([c], rest)
    else if c = '\\' then
      match rest with
      | [] => none
      | d :: r2 =>
        match scanLit q r2 with
        | none => none
        | some (l, r) => some (c :: d :: l, r)
    else
      match scanLit q rest with
      | none => none
      | some (l, r) => some (c :: l, r)

/-- Drop through the first `*/`, the lazy `.*?\*/`; `none` if absent. -/
def dropBlockClose : List Char → Option (List Char)
  | [] => none
  | c :: rest =>
    match rest with
    | [] => none
    | d :: r2 => if c = '*' ∧ d = '/' then some r2 else dropBlockClose rest

/-- Fuelled scanner for `removeComment`; the fuel bounds the number of
regex matches, with each match consuming at least one character. -/
def rcFuel : Nat → List Char → List Char
  | 0, _ => []
  | _ + 1, [] => []
  | fuel + 1, c :: rest =>
    if c = '/' then
      match rest with
      | [] => [c]
      | d :: r2 =>
        if d = '/' then rcFuel fuel (r2.dropWhile (fun e => !(e = '\n' : Bool)))
        else if d = '*' then
          match dropBlockClose r2 with
          | some r3 => rcFuel fuel r3
          | none => c :: rest.takeWhile notDelim ++ rcFuel fuel (rest.dropWhile notDelim)
        else c :: rest.takeWhile notDelim ++ rcFuel fuel (rest.dropWhile notDelim)
    else if isBraceC c then rcFuel fuel (rest.dropWhile isBraceC)
    else if c = squote then
      match scanLit squote rest with
      | some (lit, r2) => c :: lit ++ rcFuel fuel r2
      | none => c :: rest.takeWhile notDelim ++ rcFuel fuel (rest.dropWhile notDelim)
    else if c = '"' then
      match scanLit '"' rest with
      | some (lit, r2) => c :: lit ++ rcFuel fuel r2
      | none => c :: rest.takeWhile notDelim ++ rcFuel fuel (rest.dropWhile notDelim)
    else c :: rest.takeWhile notDelim ++ rcFuel fuel (rest.dropWhile notDelim)

/-- List-level `removeComment`. -/
def removeCommentL (l : List Char) : List Char := rcFuel l.length l

/-- String-level `removeComment`, as used by both scripts. -/
def removeComment (s : String) : String := String.mk (removeCommentL s.data)

/-- Characters that can neither start nor end a regex match boundary:
not a delimiter (`/`, quote, double quote) and not a brace. -/
def goodChar (c : Char) : Bool := notDelim c && !(isBraceC c)

/-- Strings free of comment delimiters, quotes and braces. -/
def delimFree (s : String) : Bool := s.data.all goodChar

theorem rcFuel_nil (n : Nat) : rcFuel n [] = [] := by
  cases n <;> rfl

theorem takeWhile_of_all {p : Char → Bool} :
    ∀ l : List Char, l.all p = true → l.takeWhile p = l := by
  intro l hl
  induction l with
  | nil => rfl
  | cons c t ih =>
    simp only [List.all_cons, Bool.and_eq_true] at hl
    simp [List.takeWhile_cons, hl.1, ih hl.2]

theorem dropWhile_of_all {p : Char → Bool} :
    ∀ l : List Char, l.all p = true → l.dropWhile p = [] := by
  intro l hl
  induction l with
  | nil => rfl
  | cons c t ih =>
    simp only [List.all_cons, Bool.and_eq_true] at hl
    simp [List.dropWhile_cons, hl.1, ih hl.2]

theorem rcFuel_of_good (n : Nat) (l : List Char) (hn : l.length ≤ n)
    (hg : l.all goodChar = true) : rcFuel n l = l := by
  cases l with
  | nil => exact rcFuel_nil n
  | cons c rest =>
    cases n with
    | zero => simp at hn
    | succ m =>
      simp only [List.all_cons, Bool.and_eq_true] at hg
      have hcg := hg.1
      have hrest := hg.2
      simp only [goodChar, notDelim, isBraceC, Bool.and_eq_true, Bool.not_eq_true',
        Bool.or_eq_false_iff, decide_eq_false_iff_not] at hcg
      have hnd : rest.all notDelim = true := by
        refine List.all_eq_true.2 (fun a ha => ?_)
        have := List.all_eq_true.1 hrest a ha
        simp only [goodChar, Bool.and_eq_true] at this
        exact this.1
      obtain ⟨⟨⟨h1, h2⟩, h3⟩, h4, h5⟩ := hcg
      simp [rcFuel, h1, h2, h3, isBraceC, h4, h5,
        takeWhile_of_all rest hnd, dropWhile_of_all rest hnd, rcFuel_nil]

theorem removeComment_of_delimFree (s : String) (h : delimFree s = true) :
    removeComment s = s := by
  unfold removeComment removeCommentL
  rw [rcFuel_of_good s.data.length s.data le_rfl h]

/-- C6 counterexample: contrary to the claim that `removeComment`
strips literal brace characters, a brace that does not begin a regex
match survives: `removeComment "a\x7b" = "a\x7b"` still contains the brace. -/
theorem C6_counterexample :
    removeComment "a\x7b" = "a\x7b" ∧ lbrace ∈ (removeComment "a\x7b").data := by
  constructor
  · decide
  · decide

/-- C6 amended: `removeComment` strips `//` line comments and
terminated `/* */` block comments, preserves code outside comments and
the contents of string literals verbatim (a comment-like sequence
inside a quoted literal is not stripped), keeps an unterminated block
comment as text without consuming the rest of the input, and
`removeComment "a//b\nc" = "a\nc"`; but literal braces are stripped
only when they begin a regex match (for example at the start of the
input or right after a literal or comment), not in the middle of a
plain-text run: `removeComment "\x7ba" = "a"` while
`removeComment "a\x7b" = "a\x7b"`.  On input free of delimiters and
braces, `removeComment` is the identity. -/
theorem C6_amended :
    removeComment "a//b\nc" = "a\nc"
    ∧ removeComment "a/*b*/c" = "ac"
    ∧ removeComment "a\"//x\"b" = "a\"//x\"b"
    ∧ removeComment "\x7ba" = "a"
    ∧ removeComment "a\x7b" = "a\x7b"
    ∧ removeComment "a/*bc" = "a/*bc"
    ∧ (∀ s : String, delimFree s = true → removeComment s = s) := by
  refine ⟨by decide, by decide, by decide, by decide, by decide, by decide, ?_⟩
  exact removeComment_of_delimFree

/-- C6 witness: the delimiter-free identity applied at `"xy"`. -/
theorem C6_witness : removeComment "xy" = "xy" :=
  C6_amended.2.2.2.2.2.2 "xy" (by decide)

/-! ### Function records (Preprocessing.py lines 360-381)

For a function with non-empty raw and abstracted bodies the
preprocessor stores `orig = rawBody.split('\n')`,
`norm = [normalize(l) for l in removeComment(rawBody).split('\n')]` and
`abst = [normalize(l) for l in removeComment(absBody).split('\n')]`;
otherwise all three stay empty. -/

/-- Python `str.split(sep)` for a one-character separator: always at
least one piece, empty pieces kept. -/
def splitCharL (sep : Char) : List Char → List (List Char)
  | [] => [[]]
  | c :: rest =>
    match splitCharL sep rest with
    | [] => [[c]]
    | h :: t => if c = sep then [] :: h :: t else (c :: h) :: t

/-- Split a string into its lines, Python `split('\n')` semantics. -/
def splitLines (s : String) : List String := (splitCharL '\n' s.data).map String.mk

/-- The three per-function representations stored by the preprocessor. -/
structure FuncRecord where
  orig : List String
  norm : List String
  abst : List String
deriving DecidableEq

/-- Embedding of Preprocessing.py lines 362-381: build the stored
representations from the raw body and the output of `abstract`. -/
def buildRecord (rawBody absBody : String) : FuncRecord :=
  if ¬ rawBody = "" ∧ ¬ absBody = "" then
    { orig := splitLines rawBody
      norm := (splitLines (removeComment rawBody)).map normalize
      abst := (splitLines (removeComment absBody)).map normalize }
  else { orig := [], norm := [], abst := [] }

/-- C5 counterexample: the claim that `raw`, `normalized`, `abstracted`
always have the same number of lines fails: a block comment spanning
two lines is removed before line splitting, so the raw body
`"a/*x\ny*/b"` has two raw lines but a single normalized line. -/
theorem C5_counterexample :
    (buildRecord "a/*x\ny*/b" "a/*x\ny*/b").orig.length = 2
    ∧ (buildRecord "a/*x\ny*/b" "a/*x\ny*/b").norm.length = 1 := by
  constructor
  · decide
  · decide

/-- C5 amended: `orig` is the line split of the raw body and `norm`
(resp. `abst`) is the per-line normalization of the comment-stripped
raw (resp. abstracted) body.  Line-for-line correspondence therefore
holds only when comment removal does not disturb the text: if the raw
and abstracted bodies are free of comment delimiters, quotes and
braces, and the abstracted body has as many lines as the raw body,
then all three representations have equally many lines and the i-th
normalized line is the normalization of the i-th raw line.  In
general a block comment spanning several lines shrinks the normalized
and abstracted line counts. -/
theorem C5_amended (rawB absB : String) (h1 : ¬ rawB = "") (h2 : ¬ absB = "")
    (hr : delimFree rawB = true) (ha : delimFree absB = true)
    (hl : (splitLines absB).length = (splitLines rawB).length) :
    (buildRecord rawB absB).orig.length = (buildRecord rawB absB).norm.length
    ∧ (buildRecord rawB absB).abst.length = (buildRecord rawB absB).norm.length
    ∧ ∀ (i : Nat) (hi : i < (buildRecord rawB absB).orig.length)
        (hn : i < (buildRecord rawB absB).norm.length),
        (buildRecord rawB absB).norm[i] = normalize ((buildRecord rawB absB).orig[i]) := by
  have e1 : removeComment rawB = rawB := removeComment_of_delimFree rawB hr
  have e2 : removeComment absB = absB := removeComment_of_delimFree absB ha
  unfold buildRecord
  rw [if_pos ⟨h1, h2⟩, e1, e2]
  refine ⟨by simp, by simp [hl], ?_⟩
  intro i hi hn
  simp

/-- C5 witness: the amended correspondence at a concrete two-line body. -/
theorem C5_witness :
    (buildRecord "ab\ncd" "xy\nzw").orig.length = (buildRecord "ab\ncd" "xy\nzw").norm.length :=
  (C5_amended "ab\ncd" "xy\nzw" (by decide) (by decide) (by decide) (by decide)
    (by decide)).1

/-! ### `abstract` (Preprocessing.py lines 104-240)

The structural-tag extractor (ctags) runs as a subprocess; on
`CalledProcessError` the code sets `astString = ""` and falls through.
The tag output is parsed line by line: a line is split on tabs after
deleting whitespace runs of length at least two
(`re.sub(r'[\t\s ]{2,}', '', i)`); `local`, `parameter` and `function`
tags are classified by fields 3/4; for each function tag the parameter
and local-variable tags whose (first-number-in-field) line falls in the
function's line span contribute their names and, when a
`typeref:\w*:` marker is present in field 5 or 6, their resolved type
with a trailing `" *"` stripped.  Collected parameter names are then
replaced by `FPARAM`, types by `DTYPE` and variable names by `LVAR`,
in that order, each via the whole-token pattern `(^|\W)tok(\W)` with
the boundary characters re-inserted.  A tag line whose function span
fields hold no number would raise in Python; such an entry is skipped
here (unreachable for well-formed ctags output and irrelevant to the
claims). -/

/-- The Python regex whitespace class `[\t\s ]`. -/
def pyWs (c : Char) : Bool :=
  c = ' ' || c = '\t' || c = '\n' || c = '\r' || c = '\x0b' || c = '\x0c'

/-- Fuelled model of `re.sub(r'[\t\s ]{2,}', '', i)`: delete every
maximal whitespace run of length at least two, keep single whitespace. -/
def collapseWSFuel : Nat → List Char → List Char
  | 0, _ => []
  | _ + 1, [] => []
  | fuel + 1, c :: rest =>
    if pyWs c then
      match rest with
      | [] => [c]
      | d :: _ =>
        if pyWs d then collapseWSFuel fuel (rest.dropWhile pyWs)
        else c :: collapseWSFuel fuel rest
    else c :: collapseWSFuel fuel rest

/-- Whitespace-run deletion at full fuel. -/
def collapseWS (l : List Char) : List Char := collapseWSFuel l.length l

/-- Tab-split of a cleaned ctags line into its fields. -/
def fieldsOf (i : String) : List String :=
  (splitCharL '\t' (collapseWS i.data)).map String.mk

/-- The regex word class `\w` (ASCII model). -/
def isWordCharB (c : Char) : Bool := c.isAlphanum || c = '_'

/-- First maximal digit run of a string, the `re.search(r'(\d+)', s)`. -/
def firstNumRun : List Char → Option (List Char)
  | [] => none
  | c :: rest =>
    if c.isDigit then some (c :: rest.takeWhile Char.isDigit) else firstNumRun rest

/-- Decimal value of a digit run. -/
def digitsToNat (l : List Char) : Nat := l.foldl (fun a c => 10 * a + (c.toNat - 48)) 0

/-- First number occurring in a string, if any. -/
def firstNat (s : String) : Option Nat := (firstNumRun s.data).map digitsToNat

/-- Drop an exact prefix, or fail. -/
def dropPrefixL : List Char → List Char → Option (List Char)
  | [], l => some l
  | _ :: _, [] => none
  | p :: ps, c :: cs => if p = c then dropPrefixL ps cs else none

/-- Boolean prefix test on strings (Python `str.startswith`). -/
def strStartsWith (p s : String) : Bool := (dropPrefixL p.data s.data).isSome

/-- Match the regex `typeref:\w*:` at the head of the list, returning
the remainder after the match. -/
def tryTyperef (l : List Char) : Option (List Char) :=
  match dropPrefixL "typeref:".data l with
  | none => none
  | some r =>
    match r.dropWhile isWordCharB with
    | [] => none
    | c :: rest => if c = ':' then some rest else none

/-- Test for an occurrence of `typeref:\w*:` (the `dataType.search`). -/
def dtSearch : List Char → Bool
  | [] => false
  | c :: rest => (tryTyperef (c :: rest)).isSome || dtSearch rest

/-- Fuelled removal of every `typeref:\w*:` occurrence (the
`dataType.sub("", s)`); each match consumes at least nine characters. -/
def dtSubFuel : Nat → List Char → List Char
  | 0, _ => []
  | _ + 1, [] => []
  | fuel + 1, c :: rest =>
    match tryTyperef (c :: rest) with
    | some r2 => dtSubFuel fuel r2
    | none => c :: dtSubFuel fuel rest

/-- String-level `dataType.sub("", s)`. -/
def dtSub (s : String) : String := String.mk (dtSubFuel s.data.length s.data)

/-- Model of `re.sub(r" \*$", "", s)`: strip one trailing `" *"`. -/
def stripPtrSuffix (s : String) : String :=
  match s.data.reverse with
  | c1 :: c2 :: rest => if c1 = '*' ∧ c2 = ' ' then String.mk rest.reverse else s
  | _ => s

/-- Classification `local.fullmatch(e[3]) or local.fullmatch(e[4])`
on a nonempty line with at least six fields. -/
def isLocalTag (i : String) (e : List String) : Bool :=
  !(i = "") && decide (e.length ≥ 6) && (e.getD 3 "" = "local" || e.getD 4 "" = "local")

/-- Classification `parameter.match(e[3]) or parameter.fullmatch(e[4])`
(`match` anchors only at the start, hence the prefix test). -/
def isParamTag (i : String) (e : List String) : Bool :=
  !(i = "") && decide (e.length ≥ 6)
    && (strStartsWith "parameter" (e.getD 3 "") || e.getD 4 "" = "parameter")

/-- Classification `func.fullmatch(e[3])` with at least eight fields. -/
def isFuncTag (i : String) (e : List String) : Bool :=
  !(i = "") && decide (e.length ≥ 8) && (e.getD 3 "" = "function")

/-- Line span of a function tag, from the first numbers in fields 4
and 7 (`line:N` and `end:M`). -/
def spanOf (e : List String) : Option (Nat × Nat) :=
  match firstNat (e.getD 4 ""), firstNat (e.getD 7 "") with
  | some a, some b => some (a, b)
  | _, _ => none

/-- Line number of a parameter/variable tag: first number in field 4,
else in field 5, else the previous `lineNumber` value (the Python
variable is only conditionally updated). -/
def tagLineNumber (prev : Nat) (e : List String) : Nat :=
  match firstNat (e.getD 4 "") with
  | some n => n
  | none =>
    match firstNat (e.getD 5 "") with
    | some n => n
    | none => prev

/-- Resolved data type of a tag: field 5 if it carries a `typeref`
marker, else field 6, with the marker removed and `" *"` stripped. -/
def tagDType (e : List String) : Option String :=
  if decide (e.length ≥ 6) && dtSearch (e.getD 5 "").data then
    some (stripPtrSuffix (dtSub (e.getD 5 "")))
  else if decide (e.length ≥ 7) && dtSearch (e.getD 6 "").data then
    some (stripPtrSuffix (dtSub (e.getD 6 "")))
  else none

/-- One step of the parameter/variable collection loop: thread the
`lineNumber` carry and append the tag's name and type when its line
falls inside the function span. -/
def tagFold (span : Nat × Nat) (st : Nat × List String × List String)
    (e : List String) : Nat × List String × List String :=
  let ln := tagLineNumber st.1 e
  if span.1 ≤ ln ∧ ln ≤ span.2 then
    (ln, st.2.1 ++ [e.getD 0 ""],
      match tagDType e with
      | some d => st.2.2 ++ [d]
      | none => st.2.2)
  else (ln, st.2.1, st.2.2)

/-- Accumulated identifier lists: parameter names, local-variable
names, and the shared data-type list. -/
structure AbsAcc where
  pnames : List String
  vnames : List String
  dtypes : List String
deriving DecidableEq

/-- Per-function-tag collection: parameters first, then variables,
sharing the type list and the `lineNumber` carry, as in the source. -/
def funcCollect (params vars : List (List String)) (acc : AbsAcc)
    (f : List String) : AbsAcc :=
  match spanOf f with
  | none => acc
  | some span =>
    let r1 := params.foldl (tagFold span) (0, acc.pnames, acc.dtypes)
    let r2 := vars.foldl (tagFold span) (r1.1, acc.vnames, r1.2.2)
    { pnames := r1.2.1, vnames := r2.2.1, dtypes := r2.2.2 }

/-- Try to read `tok` followed by a non-word character at the head of
`l`; on success return that boundary character and the remainder.
This is the `tok(\W)` part of the replacement pattern. -/
def stripTokBoundary (tok : List Char) (l : List Char) : Option (Char × List Char) :=
  match dropPrefixL tok l with
  | some (d :: rest) => if isWordCharB d then none else some (d, rest)
  | _ => none

/-- Fuelled scan for `(^|\W)tok(\W)` matches at non-initial positions:
a match needs a preceding non-word character, which is consumed and
re-emitted together with the trailing boundary character. -/
def rtFuel (tok rep : List Char) : Nat → List Char → List Char
  | 0, _ => []
  | _ + 1, [] => []
  | fuel + 1, c :: rest =>
    if isWordCharB c then c :: rtFuel tok rep fuel rest
    else
      match stripTokBoundary tok rest with
      | some (d, r2) => c :: rep ++ d :: rtFuel tok rep fuel r2
      | none => c :: rtFuel tok rep fuel rest

/-- Whole-token replacement `re.sub("(^|\W)tok(\W)", "\g<1>REP\g<2>", l)`:
the `^` alternative applies only at position zero. -/
def replaceTok (tok rep l : List Char) : List Char :=
  if tok = [] then l
  else
    match stripTokBoundary tok l with
    | some (d, r2) => rep ++ d :: rtFuel tok rep l.length r2
    | none => rtFuel tok rep l.length l

/-- String-level whole-token replacement. -/
def replaceTokStr (tok rep b : String) : String :=
  String.mk (replaceTok tok.data rep.data b.data)

/-- Replacement loop over one identifier list; an empty identifier is
skipped (`if len(param) == 0: continue`). -/
def applyAll (rep : String) (toks : List String) (b : String) : String :=
  toks.foldl (fun acc tok => if tok = "" then acc else replaceTokStr tok rep acc) b

/-- Result of the ctags subprocess call: its stdout, or the caught
`CalledProcessError`. -/
inductive CtagsResult where
  | ok (astString : String)
  | error
deriving DecidableEq

/-- Deterministic core of `abstract`: parse the tag output, collect
identifiers, and substitute `FPARAM`, then `DTYPE`, then `LVAR`. -/
def abstractCore (body : String) (astString : String) : String :=
  let functionList := (splitCharL '\n' astString.data).map String.mk
  let entries := functionList.map (fun i => (i, fieldsOf i))
  let varTags := (entries.filter (fun p => isLocalTag p.1 p.2)).map (fun p => p.2)
  let paramTags := (entries.filter (fun p => isParamTag p.1 p.2)).map (fun p => p.2)
  let funcs := (entries.filter (fun p => isFuncTag p.1 p.2)).map (fun p => p.2)
  let acc := funcs.foldl (funcCollect paramTags varTags)
    { pnames := [], vnames := [], dtypes := [] }
  applyAll "LVAR" acc.vnames (applyAll "DTYPE" acc.dtypes (applyAll "FPARAM" acc.pnames body))

/-- Embedding of `abstract(body, ext)`: on subprocess failure the
source sets `astString = ""` and continues. -/
def abstract (body : String) (ctags : CtagsResult) : String :=
  abstractCore body
    (match ctags with
     | .ok s => s
     | .error => "")

/-- Sanity check that the substitution machinery is not vacuous: a
parameter tag inside the function span turns `a` into `FPARAM` and its
resolved type `int` into `DTYPE`. -/
theorem abstract_substitutes_example :
    abstract "int f(int a)\nreturn a;"
      (.ok ("f\tt.c\tpat\tfunction\tline:1\ttypename:int\tsignature:(int a)\tend:3\n"
        ++ "a\tt.c\tpat\tparameter\tline:1\ttyperef:typename:int"))
      = "DTYPE f(DTYPE FPARAM)\nreturn FPARAM;" := by
  decide

/-- C9: if the structural-tag extractor subprocess fails during
abstraction, `abstract` returns the original function body unmodified
(no placeholder replacement); being a total function of its inputs, it
raises nothing, so extraction of the function and of the rest of the
file continues. -/
theorem C9_abstract_subprocess_failure (body : String) :
    abstract body CtagsResult.error = body := rfl

/-! ### The matching engine (Detector.py lines 228-525)

A vulnerability signature bundles what `detector` loads for one
vulnerability index: the essential lines (`_common.txt` or
`_minus.txt`, each an original/abstracted pair), the patch-added lines
(`_plus.txt`), the dependency lines without and with the oldest
lineage, the vulnerable body line list and the optional oldest body
line list.  Missing optional parts are empty lists / `none`
(Detector.py lines 239-277, 322-374).  For each target function the
engine receives the normalized line set `x` and the abstracted line
set `y` (lines 377-379). -/

/-- An essential-line entry of `_common.txt` / `_minus.txt`. -/
structure VulLine where
  vul_body : String
  abs_body : String
deriving DecidableEq

/-- A patch-added-line entry of `_plus.txt`. -/
structure PatLine where
  pat_body : String
  abs_body : String
deriving DecidableEq

/-- A dependency-line entry of `_depen.txt`. -/
structure DepLine where
  abs_norm_vul : String
  orig_norm_vul : String
deriving DecidableEq

/-- The per-vulnerability data loaded by `detector`. -/
structure VulSig where
  vulEss : List VulLine
  patEss : List PatLine
  depVul : List DepLine
  depOld : List DepLine
  vulBodyLines : List String
  oldBodyLines : Option (List String)
deriving DecidableEq

/-- Normalized original patch lines (`patLines`, line 295). -/
def patLines (sig : VulSig) : List String :=
  sig.patEss.map (fun p => normalize p.pat_body)

/-- Normalized abstracted patch lines (`patAbsLines`, line 296). -/
def patAbsLines (sig : VulSig) : List String :=
  sig.patEss.map (fun p => normalize p.abs_body)

/-- Normalized abstracted essential lines (`vulAbsLines`, line 314). -/
def vulAbsLines (sig : VulSig) : List String :=
  sig.vulEss.map (fun v => normalize v.abs_body)

/-- Patch lines not already present in the vulnerable body
(`tempNewPat`, lines 298-299): the filter keys on the normalized
original form. -/
def tempNewPat (sig : VulSig) : List String :=
  (sig.patEss.filter
    (fun p => decide (normalize p.pat_body ∉ sig.vulBodyLines))).map
    (fun p => normalize p.pat_body)

/-- Abstracted counterparts of `tempNewPat` (`tempNewAbsPat`, line 300):
filtered by the same original-form test. -/
def tempNewAbsPat (sig : VulSig) : List String :=
  (sig.patEss.filter
    (fun p => decide (normalize p.pat_body ∉ sig.vulBodyLines))).map
    (fun p => normalize p.abs_body)

/-- The cleanup `value != '\x7b' and value != '\x7d' and value != ''`
(lines 304, 307). -/
def keptPatLine (v : String) : Bool :=
  !(v = "\x7b") && !(v = "\x7d") && !(v = "")

/-- The effective original patch-line set `newPat` (line 305). -/
def newPat (sig : VulSig) : Finset String :=
  ((tempNewPat sig).filter keptPatLine).toFinset

/-- The effective abstracted patch-line set `newAbsPat` (line 308). -/
def newAbsPat (sig : VulSig) : Finset String :=
  ((tempNewAbsPat sig).filter keptPatLine).toFinset

/-- The shape flag (lines 244, 258, 266, 274, 320): 1 = delete only,
2 = delete and add, 3 = add only, 0 = neither (the signature is
skipped, line 276). -/
def flagOf (sig : VulSig) : Nat :=
  if ¬ sig.patEss = [] then (if ¬ sig.vulEss = [] then 2 else 3)
  else if ¬ sig.vulEss = [] then 1 else 0

/-- The mode flag `isAbs` (lines 245, 315-318): initialized to
abstract, and changed to literal exactly when the signature has both
patch and essential lines whose abstracted normalized sets coincide. -/
def isAbs (sig : VulSig) : Bool :=
  if ¬ sig.patEss = [] ∧ ¬ sig.vulEss = [] then
    decide (¬ (patAbsLines sig).toFinset = (vulAbsLines sig).toFinset)
  else true

/-- Core abstracted essential-line set (`coreAbsVulLines`, lines 358-365). -/
def coreAbsVulLines (sig : VulSig) : Finset String :=
  (sig.vulEss.map (fun v => normalize v.abs_body)).toFinset

/-- Core original essential-line set (`coreVulLines`, lines 359-366). -/
def coreVulLines (sig : VulSig) : Finset String :=
  (sig.vulEss.map (fun v => normalize v.vul_body)).toFinset

/-- Abstracted dependency lines without the oldest lineage
(`absDepens_withoutOLD`, lines 336-340, 352). -/
def absDepWithoutOld (sig : VulSig) : Finset String :=
  (sig.depVul.map (fun d => removeComment d.abs_norm_vul)).toFinset

/-- Normalized dependency lines without the oldest lineage
(`norDepens_withoutOLD`, lines 336-340, 354). -/
def norDepWithoutOld (sig : VulSig) : Finset String :=
  (sig.depVul.map (fun d => removeComment d.orig_norm_vul)).toFinset

/-- Abstracted dependency lines of the oldest lineage
(`absDepens_withOLD`, lines 343-349, 353). -/
def absDepWithOld (sig : VulSig) : Finset String :=
  (sig.depOld.map (fun d => removeComment d.abs_norm_vul)).toFinset

/-- Normalized dependency lines of the oldest lineage
(`norDepens_withOLD`, lines 343-349, 355). -/
def norDepWithOld (sig : VulSig) : Finset String :=
  (sig.depOld.map (fun d => removeComment d.orig_norm_vul)).toFinset

/-- The vulnerable body set (`vulBodySet`, line 372). -/
def vulBodySet (sig : VulSig) : Finset String := sig.vulBodyLines.toFinset

/-- The oldest body set when present (`oldBodySet`, lines 370-374);
`none` leaves the Python variable a plain empty list. -/
def oldBodySet (sig : VulSig) : Option (Finset String) :=
  sig.oldBodyLines.map List.toFinset

/-- Dependency containment with the oldest-lineage fallback (lines
395-409 / 449-463): all without-oldest lines must be contained; if
that fails and the with-oldest set is nonempty, all of its lines must
be contained instead. -/
def depPass (without withOld target : Finset String) : Bool :=
  if without ⊆ target then true
  else if ¬ withOld = ∅ then decide (withOld ⊆ target) else false

/-- One emitted match report: the printed message names either the
vulnerable version (line 426/477/511) or the oldest version
(line 434/487/519); the two prints are distinguished by which body
set passed the threshold. -/
inductive Report where
  | vul
  | old
deriving DecidableEq

/-- The caught runtime errors of the oldest-body similarity check
(lines 430-437 etc.): `TypeError` when `oldBodySet` is still the empty
list (no `old_body` key), `ZeroDivisionError` when it is an empty set. -/
inductive SimErr where
  | typeErr
  | divByZero
deriving DecidableEq

/-- The comparison `float(len(inter)/len(den)) >= theta` with
`theta = 0.5`, modelled exactly on naturals; a zero denominator is the
`ZeroDivisionError`. -/
def ratioGE (num den : Nat) : Except SimErr Bool :=
  if den = 0 then Except.error SimErr.divByZero
  else Except.ok (decide (den ≤ 2 * num))

/-- The residual-similarity phase (lines 419-437, 473-490, 505-522):
skip when the vulnerable body has at most three lines; report against
the vulnerable version when its containment ratio meets the
threshold (and `continue`, skipping the oldest check); otherwise try
the oldest body inside `try/except`, where a missing or empty oldest
body raises and is swallowed.  The second component records the
swallowed error, `none` when no exception was raised. -/
def simPhase (vb : Finset String) (ob : Option (Finset String)) (x : Finset String) :
    List Report × Option SimErr :=
  if vb.card ≤ 3 then ([], none)
  else
    match ratioGE (vb ∩ x).card vb.card with
    | Except.error e => ([], some e)
    | Except.ok true => ([Report.vul], none)
    | Except.ok false =>
      match ob with
      | none => ([], some SimErr.typeErr)
      | some o =>
        match ratioGE (o ∩ x).card o.card with
        | Except.error e => ([], some e)
        | Except.ok true => ([Report.old], none)
        | Except.ok false => ([], none)

/-- The per-candidate decision procedure of `detector` (lines
381-525) for one (signature, target function) pair, where `x` is the
target's normalized line set and `y` its abstracted line set: choose
the branch by shape flag and mode, check essential-line containment,
dependency containment with fallback, patch-added-line disjointness
(shapes 2 and 3, against the `newPat`/`newAbsPat` sets), then run the
similarity phase.  Returns the emitted reports and the swallowed
similarity error, if any. -/
def detectorPairFull (sig : VulSig) (x y : Finset String) :
    List Report × Option SimErr :=
  if flagOf sig = 1 ∨ flagOf sig = 2 then
    if isAbs sig = true then
      if ¬ coreAbsVulLines sig ⊆ y then ([], none)
      else if ¬ depPass (absDepWithoutOld sig) (absDepWithOld sig) y = true then ([], none)
      else if flagOf sig = 2 ∧ ¬ newAbsPat sig ∩ y = ∅ then ([], none)
      else simPhase (vulBodySet sig) (oldBodySet sig) x
    else
      if ¬ coreVulLines sig ⊆ x then ([], none)
      else if ¬ depPass (norDepWithoutOld sig) (norDepWithOld sig) x = true then ([], none)
      else if flagOf sig = 2 ∧ ¬ newPat sig ∩ x = ∅ then ([], none)
      else simPhase (vulBodySet sig) (oldBodySet sig) x
  else if flagOf sig = 3 then
    if newAbsPat sig = ∅ then ([], none)
    else if ¬ newAbsPat sig ∩ y = ∅ then ([], none)
    else simPhase (vulBodySet sig) (oldBodySet sig) x
  else ([], none)

/-- The reports emitted for one candidate pair. -/
def detectorPair (sig : VulSig) (x y : Finset String) : List Report :=
  (detectorPairFull sig x y).1

/-- The conjunction of the essential-line, dependency-line and
patch-added-line gates of the shape-1/2 branches, in the chosen mode. -/
def containmentPass (sig : VulSig) (x y : Finset String) : Bool :=
  if isAbs sig = true then
    decide (coreAbsVulLines sig ⊆ y)
      && depPass (absDepWithoutOld sig) (absDepWithOld sig) y
      && decide (¬ (flagOf sig = 2 ∧ ¬ newAbsPat sig ∩ y = ∅))
  else
    decide (coreVulLines sig ⊆ x)
      && depPass (norDepWithoutOld sig) (norDepWithOld sig) x
      && decide (¬ (flagOf sig = 2 ∧ ¬ newPat sig ∩ x = ∅))

theorem isAbs_of_flag3 (sig : VulSig) (h : flagOf sig = 3) : isAbs sig = true := by
  unfold flagOf at h
  by_cases hp : ¬ sig.patEss = []
  · rw [if_pos hp] at h
    by_cases hv : ¬ sig.vulEss = []
    · rw [if_pos hv] at h; omega
    · unfold isAbs
      rw [if_neg (fun hc => hv hc.2)]
  · rw [if_neg hp] at h
    by_cases hv : ¬ sig.vulEss = []
    · rw [if_pos hv] at h; omega
    · rw [if_neg hv] at h; omega

theorem pairFull_of_pass (sig : VulSig) (x y : Finset String)
    (hf : flagOf sig = 1 ∨ flagOf sig = 2)
    (hp : containmentPass sig x y = true) :
    detectorPairFull sig x y = simPhase (vulBodySet sig) (oldBodySet sig) x := by
  unfold detectorPairFull
  unfold containmentPass at hp
  rw [if_pos hf]
  by_cases ha : isAbs sig = true
  · rw [if_pos ha]
    rw [if_pos ha] at hp
    simp only [Bool.and_eq_true, decide_eq_true_eq] at hp
    obtain ⟨⟨h1, h2⟩, h3⟩ := hp
    rw [if_neg (not_not_intro h1), if_neg (not_not_intro h2), if_neg h3]
  · rw [if_neg ha]
    rw [if_neg ha] at hp
    simp only [Bool.and_eq_true, decide_eq_true_eq] at hp
    obtain ⟨⟨h1, h2⟩, h3⟩ := hp
    rw [if_neg (not_not_intro h1), if_neg (not_not_intro h2), if_neg h3]

/-- C4: for a signature with both essential and patch-added lines, the
engine selects abstract mode exactly when the normalized abstracted
patch-line set differs from the normalized abstracted essential-line
set, and literal mode exactly when they coincide (`isAbs`, Detector.py
lines 311-318; the flag then selects which branch, and hence which
target line set, lines 387 and 439-444, is compared). -/
theorem C4_mode_selection (sig : VulSig)
    (h1 : ¬ sig.patEss = []) (h2 : ¬ sig.vulEss = []) :
    isAbs sig = true ↔ ¬ (patAbsLines sig).toFinset = (vulAbsLines sig).toFinset := by
  simp [isAbs, h1, h2]

/-- Signature with one essential and one patch line whose abstracted
forms differ. -/
def sigC4 : VulSig :=
  { vulEss := [⟨"v", "av"⟩], patEss := [⟨"p", "ap"⟩],
    depVul := [], depOld := [], vulBodyLines := [], oldBodyLines := none }

/-- C4 witness: the mode-selection rule evaluated on `sigC4`. -/
theorem C4_witness : isAbs sigC4 = true :=
  (C4_mode_selection sigC4 (by decide) (by decide)).mpr (by decide)

/-- C10: a delete-only signature (essential lines, no patch-added
lines) has shape flag 1 and keeps the default abstract mode, and its
containment gates read only the abstracted target set `y`, never the
normalized set `x` (Detector.py lines 244-245: `isAbs = 1` is only
ever changed inside the `len(pat_essLines) > 0` block, lines 285-318;
the abstract branch then checks `coreAbsVulLines` and the abstracted
dependency sets against `y`, lines 387-409). -/
theorem C10_delete_only_abstract (sig : VulSig)
    (hpat : sig.patEss = []) (hvul : ¬ sig.vulEss = []) :
    flagOf sig = 1 ∧ isAbs sig = true
    ∧ ∀ x x' y : Finset String, containmentPass sig x y = containmentPass sig x' y := by
  have hf : flagOf sig = 1 := by simp [flagOf, hpat, hvul]
  have ha : isAbs sig = true := by simp [isAbs, hpat]
  exact ⟨hf, ha, fun x x' y => by simp [containmentPass, ha]⟩

/-- Delete-only signature used as the C10 witness. -/
def sigC10 : VulSig :=
  { vulEss := [⟨"e", "a"⟩], patEss := [],
    depVul := [], depOld := [],
    vulBodyLines := ["b1", "b2", "b3", "b4"], oldBodyLines := none }

/-- C10 witness: abstract mode and x-independence of the gates at a
concrete delete-only signature. -/
theorem C10_witness :
    isAbs sigC10 = true
    ∧ containmentPass sigC10 {"p"} {"a"} = containmentPass sigC10 ∅ {"a"} :=
  ⟨(C10_delete_only_abstract sigC10 (by decide) (by decide)).2.1,
   (C10_delete_only_abstract sigC10 (by decide) (by decide)).2.2 {"p"} ∅ {"a"}⟩

/-- Shape-2 signature whose sole patch-added line also occurs in the
vulnerable body: `normalize "p" = "p"` is in `vulBodyLines`, so the
line is filtered out of `newPat`/`newAbsPat` (Detector.py lines
298-300) and its presence in the target cannot veto the match. -/
def sigC1 : VulSig :=
  { vulEss := [⟨"e1", "a1"⟩], patEss := [⟨"p", "ap"⟩],
    depVul := [], depOld := [],
    vulBodyLines := ["p", "b", "c", "d"], oldBodyLines := none }

/-- C1 counterexample: a shape-2 candidate in abstract mode whose
target abstracted set contains the signature's abstracted patch-added
line `"ap"`, yet the engine still reports a match, because the
disjointness check uses the filtered `newAbsPat` set, not the full
patch-added-line set. -/
theorem C1_counterexample :
    flagOf sigC1 = 2 ∧ isAbs sigC1 = true
    ∧ "ap" ∈ patAbsLines sigC1
    ∧ "ap" ∈ ({"a1", "ap"} : Finset String)
    ∧ ¬ detectorPair sigC1 {"p", "b", "c", "d"} {"a1", "ap"} = [] := by
  exact ⟨by decide, by decide, by decide, by decide, by decide⟩

/-- C1 amended: the veto holds for the *effective* patch-added sets:
whenever a shape-2 or shape-3 candidate's target set (abstracted set
in abstract mode, normalized set in literal mode) meets the filtered
patch-added-line set (`newAbsPat` resp. `newPat`: patch lines whose
normalized original form is absent from the vulnerable body and that
are not a lone brace or empty), the engine reports no match for the
pair, regardless of any other evidence. -/
theorem C1_amended (sig : VulSig) (x y : Finset String)
    (hf : flagOf sig = 2 ∨ flagOf sig = 3)
    (hp : (isAbs sig = true ∧ ¬ newAbsPat sig ∩ y = ∅)
      ∨ (isAbs sig = false ∧ ¬ newPat sig ∩ x = ∅)) :
    detectorPair sig x y = [] := by
  unfold detectorPair detectorPairFull
  rcases hf with hf | hf
  · have hor : flagOf sig = 1 ∨ flagOf sig = 2 := Or.inr hf
    rw [if_pos hor]
    rcases hp with ⟨ha, hd⟩ | ⟨ha, hd⟩
    · rw [if_pos ha]
      by_cases h1 : ¬ coreAbsVulLines sig ⊆ y
      · rw [if_pos h1]
      · rw [if_neg h1]
        by_cases h2 : ¬ depPass (absDepWithoutOld sig) (absDepWithOld sig) y = true
        · rw [if_pos h2]
        · rw [if_neg h2, if_pos ⟨hf, hd⟩]
    · rw [if_neg (by simp [ha])]
      by_cases h1 : ¬ coreVulLines sig ⊆ x
      · rw [if_pos h1]
      · rw [if_neg h1]
        by_cases h2 : ¬ depPass (norDepWithoutOld sig) (norDepWithOld sig) x = true
        · rw [if_pos h2]
        · rw [if_neg h2, if_pos ⟨hf, hd⟩]
  · have hor : ¬ (flagOf sig = 1 ∨ flagOf sig = 2) := by rw [hf]; decide
    rw [if_neg hor, if_pos hf]
    rcases hp with ⟨ha, hd⟩ | ⟨ha, hd⟩
    · have hne : ¬ newAbsPat sig = ∅ := by
        intro h0
        exact hd (by rw [h0]; simp)
      rw [if_neg hne, if_pos hd]
    · exact absurd (isAbs_of_flag3 sig hf) (by simp [ha])

/-- Shape-2 signature with a genuinely new patch-added line `"q"`. -/
def sigC1w : VulSig :=
  { vulEss := [⟨"e", "a"⟩], patEss := [⟨"q", "aq"⟩],
    depVul := [], depOld := [],
    vulBodyLines := ["b1", "b2", "b3", "b4"], oldBodyLines := none }

/-- C1 witness: the amended veto at a concrete shape-2 candidate whose
target contains the effective abstracted patch line `"aq"`. -/
theorem C1_witness : detectorPair sigC1w {"z"} {"a", "aq"} = [] :=
  C1_amended sigC1w {"z"} {"a", "aq"} (Or.inl (by decide))
    (Or.inl ⟨by decide, by decide⟩)

theorem simPhase_fst_ne_vul (vb : Finset String) (ob : Option (Finset String))
    (x : Finset String) (h3 : 3 < vb.card)
    (hr : ¬ vb.card ≤ 2 * (vb ∩ x).card) :
    ¬ (simPhase vb ob x).1 = [Report.vul] := by
  have hn3 : ¬ vb.card ≤ 3 := by omega
  have hne : ¬ vb.card = 0 := by omega
  cases ob with
  | none =>
    have hs : simPhase vb none x = ([], some SimErr.typeErr) := by
      simp [simPhase, ratioGE, hn3, hne, hr]
    rw [hs]; simp
  | some o =>
    by_cases h0 : o.card = 0
    · have ho : o = ∅ := Finset.card_eq_zero.mp h0
      subst ho
      have hs : simPhase vb (some ∅) x = ([], some SimErr.divByZero) := by
        simp [simPhase, ratioGE, hn3, hne, hr]
      rw [hs]; simp
    · by_cases hro : o.card ≤ 2 * (o ∩ x).card
      · have hs : simPhase vb (some o) x = ([Report.old], none) := by
          simp [simPhase, ratioGE, hn3, hne, hr, h0, hro]
        rw [hs]; simp
      · have hs : simPhase vb (some o) x = ([], none) := by
          simp [simPhase, ratioGE, hn3, hne, hr, h0, hro]
        rw [hs]; simp

theorem simPhase_old_iff (vb : Finset String) (ob : Option (Finset String))
    (x o : Finset String) (h3 : 3 < vb.card)
    (hr : ¬ vb.card ≤ 2 * (vb ∩ x).card)
    (hob : ob = some o) (h0 : ¬ o.card = 0) :
    (simPhase vb ob x).1 = [Report.old] ↔ o.card ≤ 2 * (o ∩ x).card := by
  subst hob
  have hn3 : ¬ vb.card ≤ 3 := by omega
  have hne : ¬ vb.card = 0 := by omega
  by_cases hro : o.card ≤ 2 * (o ∩ x).card
  · have hs : simPhase vb (some o) x = ([Report.old], none) := by
      simp [simPhase, ratioGE, hn3, hne, hr, h0, hro]
    rw [hs]; simp [hro]
  · have hs : simPhase vb (some o) x = ([], none) := by
      simp [simPhase, ratioGE, hn3, hne, hr, h0, hro]
    rw [hs]; simp [hro]

/-- Delete-only signature whose vulnerable and oldest bodies coincide:
both similarity ratios are 1. -/
def sigC2 : VulSig :=
  { vulEss := [⟨"e", "a"⟩], patEss := [],
    depVul := [], depOld := [],
    vulBodyLines := ["l1", "l2", "l3", "l4"],
    oldBodyLines := some ["l1", "l2", "l3", "l4"] }

/-- C2 counterexample: a shape-1 candidate that passes all gates, has
a vulnerable body of four lines, carries an oldest body meeting the
0.5 threshold — yet no match against the oldest version is reported,
because the `continue` after the vulnerable-body match (Detector.py
line 427) skips the oldest-body check; it is not repeated
independently of the first check's outcome, as the claim states. -/
theorem C2_counterexample :
    (flagOf sigC2 = 1 ∨ flagOf sigC2 = 2)
    ∧ containmentPass sigC2 {"l1", "l2", "l3", "l4"} {"a"} = true
    ∧ 3 < (vulBodySet sigC2).card
    ∧ oldBodySet sigC2 = some {"l1", "l2", "l3", "l4"}
    ∧ ({"l1", "l2", "l3", "l4"} : Finset String).card ≤
        2 * (({"l1", "l2", "l3", "l4"} : Finset String) ∩ {"l1", "l2", "l3", "l4"}).card
    ∧ ¬ Report.old ∈ detectorPair sigC2 {"l1", "l2", "l3", "l4"} {"a"} := by
  exact ⟨by decide, by decide, by decide, by decide, by decide, by decide⟩

/-- C2 amended: for a shape-1/2 candidate that passes the essential,
dependency and patch-added gates, the pair is skipped when the
vulnerable body has at most 3 lines; otherwise a match against the
vulnerable version is reported exactly when
`2 * |vulnerableBodySet ∩ x| >= |vulnerableBodySet|` (the 0.5
threshold); and the oldest-body ratio check runs only when that first
check fails, reporting a match against the oldest version exactly
when the oldest body is present, nonempty, and meets the threshold. -/
theorem C2_amended (sig : VulSig) (x y : Finset String)
    (hf : flagOf sig = 1 ∨ flagOf sig = 2)
    (hp : containmentPass sig x y = true) :
    ((vulBodySet sig).card ≤ 3 → detectorPair sig x y = [])
    ∧ (3 < (vulBodySet sig).card →
        (detectorPair sig x y = [Report.vul]
          ↔ (vulBodySet sig).card ≤ 2 * ((vulBodySet sig ∩ x).card))
        ∧ (¬ (vulBodySet sig).card ≤ 2 * ((vulBodySet sig ∩ x).card) →
            ∀ o : Finset String, oldBodySet sig = some o → ¬ o.card = 0 →
              (detectorPair sig x y = [Report.old] ↔ o.card ≤ 2 * (o ∩ x).card))) := by
  have he : detectorPairFull sig x y = simPhase (vulBodySet sig) (oldBodySet sig) x :=
    pairFull_of_pass sig x y hf hp
  constructor
  · intro h3
    unfold detectorPair
    rw [he]
    simp [simPhase, h3]
  · intro h3
    constructor
    · by_cases hr : (vulBodySet sig).card ≤ 2 * ((vulBodySet sig ∩ x).card)
      · have hn3 : ¬ (vulBodySet sig).card ≤ 3 := by omega
        have hne : ¬ (vulBodySet sig).card = 0 := by omega
        constructor
        · intro _; exact hr
        · intro _
          unfold detectorPair
          rw [he]
          simp [simPhase, ratioGE, hn3, hne, hr]
      · constructor
        · intro hl
          exfalso
          apply simPhase_fst_ne_vul (vulBodySet sig) (oldBodySet sig) x h3 hr
          unfold detectorPair at hl
          rw [he] at hl
          exact hl
        · exact fun hrr => absurd hrr hr
    · intro hr o hob h0
      unfold detectorPair
      rw [he]
      exact simPhase_old_iff (vulBodySet sig) (oldBodySet sig) x o h3 hr hob h0

/-- C2 witness: the amended behaviour at a concrete passing candidate
whose vulnerable-body ratio is 1. -/
theorem C2_witness :
    detectorPair sigC2 {"l1", "l2", "l3", "l4"} {"a"} = [Report.vul] :=
  (((C2_amended sigC2 {"l1", "l2", "l3", "l4"} {"a"} (Or.inl (by decide))
    (by decide)).2 (by decide)).1).mpr (by decide)

/-- Delete-only signature whose oldest body is present but empty: the
oldest-body similarity division has denominator zero. -/
def sigC8 : VulSig :=
  { vulEss := [⟨"e", "a"⟩], patEss := [],
    depVul := [], depOld := [],
    vulBodyLines := ["l1", "l2", "l3", "l4"],
    oldBodyLines := some [] }

/-- C8 counterexample: a candidate whose oldest body is present but
empty reaches the oldest-body similarity division with denominator
zero — the `ZeroDivisionError` is raised (and swallowed by the bare
`except`, so the pair yields no match), contradicting the claim that
no similarity computation ever divides by zero. -/
theorem C8_counterexample :
    (detectorPairFull sigC8 ∅ {"a"}).2 = some SimErr.divByZero
    ∧ detectorPair sigC8 ∅ {"a"} = [] := by
  exact ⟨by decide, by decide⟩

/-- C8 amended: the division by `|vulnerableBodySet|` is evaluated
only under the minimum-body-size guard (more than 3 lines), so its
denominator is never zero; but the division by `|oldestBodySet|` is
guarded only by the presence of an oldest body, and divides by zero
exactly when the similarity phase is reached, the vulnerable-body
check fails, and the oldest body is present but empty — the raised
error is swallowed and the pair yields no report. -/
theorem C8_amended (vb : Finset String) (ob : Option (Finset String))
    (x : Finset String) :
    ((simPhase vb ob x).2 = some SimErr.divByZero
      ↔ 3 < vb.card ∧ ¬ vb.card ≤ 2 * (vb ∩ x).card ∧ ob = some ∅)
    ∧ ((simPhase vb ob x).2 = some SimErr.divByZero → (simPhase vb ob x).1 = []) := by
  by_cases h3 : vb.card ≤ 3
  · have hs : simPhase vb ob x = ([], none) := by simp [simPhase, h3]
    rw [hs]
    exact ⟨⟨fun h => by simp at h, fun h => absurd h.1 (by omega)⟩,
      fun h => by simp at h⟩
  · have h3' : 3 < vb.card := by omega
    have hne : ¬ vb.card = 0 := by omega
    by_cases hr : vb.card ≤ 2 * (vb ∩ x).card
    · have hs : simPhase vb ob x = ([Report.vul], none) := by
        simp [simPhase, ratioGE, h3, hne, hr]
      rw [hs]
      exact ⟨⟨fun h => by simp at h, fun h => absurd hr h.2.1⟩,
        fun h => by simp at h⟩
    · cases hob : ob with
      | none =>
        have hs : simPhase vb none x = ([], some SimErr.typeErr) := by
          simp [simPhase, ratioGE, h3, hne, hr]
        rw [hs]
        refine ⟨⟨fun h => absurd h (by simp), fun h => ?_⟩, fun _ => rfl⟩
        obtain ⟨_, _, hcon⟩ := h
        exact Option.noConfusion hcon
      | some o =>
        by_cases h0 : o.card = 0
        · have ho : o = ∅ := Finset.card_eq_zero.mp h0
          subst ho
          have hs : simPhase vb (some ∅) x = ([], some SimErr.divByZero) := by
            simp [simPhase, ratioGE, h3, hne, hr]
          rw [hs]
          exact ⟨⟨fun _ => ⟨h3', hr, rfl⟩, fun _ => rfl⟩, fun _ => rfl⟩
        · have hbig : ∀ h : Prop, (3 < vb.card ∧ ¬ vb.card ≤ 2 * (vb ∩ x).card
              ∧ some o = some ∅) → h := by
            intro h hcontra
            obtain ⟨_, _, hcon⟩ := hcontra
            rw [Option.some_inj] at hcon
            exact absurd (by rw [hcon]; simp : o.card = 0) h0
          by_cases hro : o.card ≤ 2 * (o ∩ x).card
          · have hs : simPhase vb (some o) x = ([Report.old], none) := by
              simp [simPhase, ratioGE, h3, hne, hr, h0, hro]
            rw [hs]
            exact ⟨⟨fun h => by simp at h, fun h => hbig _ h⟩, fun h => by simp at h⟩
          · have hs : simPhase vb (some o) x = ([], none) := by
              simp [simPhase, ratioGE, h3, hne, hr, h0, hro]
            rw [hs]
            exact ⟨⟨fun h => by simp at h, fun h => hbig _ h⟩, fun h => by simp at h⟩

/-- C8 witness: the amended characterization applied at a concrete
four-line vulnerable body with an empty oldest body. -/
theorem C8_witness :
    (simPhase {"a", "b", "c", "d"} (some ∅) ∅).1 = [] :=
  (C8_amended {"a", "b", "c", "d"} (some ∅) ∅).2
    ((C8_amended {"a", "b", "c", "d"} (some ∅) ∅).1.mpr (by decide))

/-! ### Search-space reduction (Detector.py lines 137-196)

`spaceReduction` reads the target hash table (lines of
`hashval \t funcKey`), and for every open-source component that is
both listed in the vulnerability hash store and in the OSS index,
marks each target function whose normalized-body hash occurs in that
component's hash set.  The marking key, however, is
`'@@'.join(funcKey.split('##')[1].split('@@')[:-1])` (line 181) — the
function's path with its last segment dropped, i.e. its directory —
and the retention filter (line 192) applies the same transformation
to every target function key.  A key without `'##'` would raise an
`IndexError` in Python; `getD` keeps the model total (the keys written
by Preprocessing.py line 357 always contain `'##'`). -/

/-- One line of the target's `_hash.txt` table. -/
structure HashEntry where
  hashval : String
  funcKey : String
deriving DecidableEq

/-- First occurrence of `sep` in a list: the part before it and the
part after it. -/
def findSub (sep : List Char) : List Char → Option (List Char × List Char)
  | [] => none
  | c :: rest =>
    match dropPrefixL sep (c :: rest) with
    | some post => some ([], post)
    | none =>
      match findSub sep rest with
      | none => none
      | some (pre, post) => some (c :: pre, post)

/-- Fuelled multi-character split (Python `str.split(sep)` for a
non-empty separator). -/
def splitSubFuel : Nat → List Char → List Char → List (List Char)
  | 0, _, l => [l]
  | fuel + 1, sep, l =>
    match findSub sep l with
    | none => [l]
    | some (pre, post) => pre :: splitSubFuel fuel sep post

/-- String-level multi-character split. -/
def splitSub (sep s : String) : List String :=
  (splitSubFuel s.data.length sep.data s.data).map String.mk

/-- Python `sep.join(pieces)`. -/
def joinSep (sep : List Char) : List (List Char) → List Char
  | [] => []
  | [x] => x
  | x :: y :: t => x ++ sep ++ joinSep sep (y :: t)

/-- The marking key of line 181 / 192:
`'@@'.join(k.split('##')[1].split('@@')[:-1])` — the function's
directory path. -/
def dirKey (k : String) : String :=
  String.mk (joinSep "@@".data
    (((splitSub "@@" ((splitSub "##" k).getD 1 "")).dropLast).map String.data))

/-- A hash-table entry is hit when some open-source component both has
known vulnerabilities (is in the OSS index) and lists the entry's
hash (lines 175-178). -/
def hashHit (vulHashes : List (String × List String)) (ossKeys : List String)
    (e : HashEntry) : Bool :=
  vulHashes.any (fun oss => decide (oss.1 ∈ ossKeys) && decide (e.hashval ∈ oss.2))

/-- The `res` key set built from the hash hits (lines 174-181). -/
def resKeys (hashLines : List HashEntry) (vulHashes : List (String × List String))
    (ossKeys : List String) : List String :=
  (hashLines.filter (hashHit vulHashes ossKeys)).map (fun e => dirKey e.funcKey)

/-- The retained target-function keys (lines 190-195): those whose
directory key occurs in `res`. -/
def spaceReductionFuncs (hashLines : List HashEntry)
    (vulHashes : List (String × List String)) (ossKeys : List String)
    (tarFuncs : List String) : List String :=
  tarFuncs.filter (fun k => decide (dirKey k ∈ resKeys hashLines vulHashes ossKeys))

/-- Concrete hash table: function `f` in directory `d` is hash-hit,
function `g` in the same directory is not. -/
def hlC3 : List HashEntry := [⟨"h1", "f##d@@a.c"⟩, ⟨"h2", "g##d@@b.c"⟩]

/-- Concrete vulnerability hash store listing only `h1`. -/
def vhC3 : List (String × List String) := [("oss1", ["h1"])]

/-- Concrete OSS index. -/
def okC3 : List String := ["oss1"]

/-- Concrete target-function key list. -/
def tfC3 : List String := ["f##d@@a.c", "g##d@@b.c"]

/-- C3 counterexample: the reducer retains `g##d@@b.c` although no
hash hit implicates it — its directory merely contains the hash-hit
function `f##d@@a.c` — so retention is not equivalent to being
implicated by a hash hit. -/
theorem C3_counterexample :
    "g##d@@b.c" ∈ spaceReductionFuncs hlC3 vhC3 okC3 tfC3
    ∧ ¬ ∃ e ∈ hlC3, hashHit vhC3 okC3 e = true ∧ e.funcKey = "g##d@@b.c" := by
  exact ⟨by decide, by decide⟩

/-- C3 amended: the reducer retains a target function exactly when
some hash-table entry is hit by a component with known
vulnerabilities and that entry's function lies in the same directory
(function key with the last path segment dropped) as the target
function — retention is directory-granular, not function-granular. -/
theorem C3_amended (hashLines : List HashEntry)
    (vulHashes : List (String × List String)) (ossKeys : List String)
    (tarFuncs : List String) (k : String) :
    k ∈ spaceReductionFuncs hashLines vulHashes ossKeys tarFuncs ↔
      k ∈ tarFuncs ∧ ∃ e ∈ hashLines, hashHit vulHashes ossKeys e = true
        ∧ dirKey e.funcKey = dirKey k := by
  simp only [spaceReductionFuncs, resKeys, List.mem_filter, decide_eq_true_eq,
    List.mem_map, List.mem_filter]
  constructor
  · rintro ⟨hk, e, ⟨he, hhit⟩, hdk⟩
    exact ⟨hk, e, he, hhit, hdk⟩
  · rintro ⟨hk, e, he, hhit, hdk⟩
    exact ⟨hk, e, ⟨he, hhit⟩, hdk⟩

end Movery
